import Mathlib

/-!
Verification development for the free-draw infinite-canvas engine.

The definitions below are a shallow embedding of the TypeScript sources:
  * `src/renderer/kanva-render/InfiniteKonva/viewport/ViewportManager.ts`
    (coordinate transforms, zoom/pan/fit operations, zoom clamping,
    configuration merge), and
  * `src/renderer/kanva-render/renderer.ts` (the `ChunkedCanvas` engine:
    visible chunk computation, load/render queues, chunk loading with
    retry, chunk rendering, LRU cache cleanup).

JS `number` is modelled by `ℚ`; `Date.now()` timestamps by `ℕ`;
`Map`/`Set` by insertion-ordered association lists; a JS dynamic property
that starts out `undefined` by `Option`.  Statistics counters that the
source can drive below zero use `ℤ`.
-/

namespace FreeDraw

/-- A 2-D point (`Vector2D` in `types/viewport.ts`). -/
structure Vec2 where
  x : ℚ
  y : ℚ
deriving DecidableEq, Repr

/-- The state of the Konva world group that `ViewportManager` manipulates:
its position and its (uniform) scale.  `viewport.zoom` is kept in sync with
`worldGroup.scaleX()` by `updateViewportFromWorldGroup`, so one field
represents both. -/
structure GroupState where
  posX : ℚ
  posY : ℚ
  scale : ℚ
deriving DecidableEq, Repr

/-- The zoom-relevant part of `ViewportConfig` (defaults in
`ViewportManager.ts` lines 87-112). -/
structure ViewportConfigCore where
  minZoom : ℚ
  maxZoom : ℚ
  defaultZoom : ℚ
  zoomStep : ℚ
deriving DecidableEq, Repr

/-- `ViewportManager.screenToWorld` (lines 636-644):
`(screenPos - layerPos) / scale` componentwise. -/
def screenToWorld (g : GroupState) (p : Vec2) : Vec2 :=
  ⟨(p.x - g.posX) / g.scale, (p.y - g.posY) / g.scale⟩

/-- `ViewportManager.worldToScreen` (lines 649-657):
`worldPos * scale + layerPos` componentwise. -/
def worldToScreen (g : GroupState) (p : Vec2) : Vec2 :=
  ⟨p.x * g.scale + g.posX, p.y * g.scale + g.posY⟩

/-- `ViewportManager.clampZoom` (lines 1127-1129):
`Math.max(minZoom, Math.min(maxZoom, zoom))`. -/
def clampZoom (cfg : ViewportConfigCore) (zoom : ℚ) : ℚ :=
  max cfg.minZoom (min cfg.maxZoom zoom)

/-- `ViewportManager.immediateZoomToPoint` (lines 325-353): read the world
point under the cursor, change the scale, then translate the group so the
world point maps back to the same screen point. -/
def immediateZoomToPoint (g : GroupState) (point : Vec2) (newZoom : ℚ) :
    GroupState :=
  let worldPoint := screenToWorld g point
  let g1 : GroupState := ⟨g.posX, g.posY, newZoom⟩
  let newScreenPoint := worldToScreen g1 worldPoint
  let dx := point.x - newScreenPoint.x
  let dy := point.y - newScreenPoint.y
  ⟨g1.posX + dx, g1.posY + dy, newZoom⟩

/-- `ViewportManager.zoomToPoint` (lines 303-320) on the non-animated path
(`animate = false`): clamp the new zoom, return unchanged when the clamped
zoom equals the old one, otherwise apply `immediateZoomToPoint`. -/
def zoomToPoint (cfg : ViewportConfigCore) (g : GroupState) (point : Vec2)
    (deltaZoom : ℚ) : GroupState :=
  let oldZoom := g.scale
  let newZoom := clampZoom cfg (oldZoom + deltaZoom)
  if oldZoom = newZoom then g else immediateZoomToPoint g point newZoom

/-- `ViewportManager.zoomToCenter` (lines 404-410): zoom to the screen
center point. -/
def zoomToCenter (cfg : ViewportConfigCore) (g : GroupState)
    (screenWidth screenHeight deltaZoom : ℚ) : GroupState :=
  zoomToPoint cfg g ⟨screenWidth / 2, screenHeight / 2⟩ deltaZoom

/-- A bounding box `{x, y, width, height}` (`BoundingBox` in
`types/viewport.ts`). -/
structure BBox where
  x : ℚ
  y : ℚ
  width : ℚ
  height : ℚ
deriving DecidableEq, Repr

/-- The target zoom computed by `ViewportManager.fitToBounds`
(lines 536-538): `Math.min(scaleX, scaleY, maxZoom)`.  There is no lower
clamp against `minZoom`. -/
def fitToBoundsZoom (cfg : ViewportConfigCore)
    (screenWidth screenHeight : ℚ) (bounds : BBox) (padding : ℚ) : ℚ :=
  let scaleX := (screenWidth - padding * 2) / bounds.width
  let scaleY := (screenHeight - padding * 2) / bounds.height
  min (min scaleX scaleY) cfg.maxZoom

/-- `ViewportManager.immediateFitToBounds` (lines 554-578): set the scale
to `targetZoom`, then position the group so `(centerX, centerY)` sits at
the screen center. -/
def immediateFitToBounds (screenWidth screenHeight centerX centerY
    targetZoom : ℚ) : GroupState :=
  let targetWorldX := centerX - screenWidth / (2 * targetZoom)
  let targetWorldY := centerY - screenHeight / (2 * targetZoom)
  ⟨-targetWorldX * targetZoom, -targetWorldY * targetZoom, targetZoom⟩

/-- `ViewportManager.fitToBounds` (lines 530-549) on the non-animated
path. -/
def fitToBounds (cfg : ViewportConfigCore) (_g : GroupState)
    (screenWidth screenHeight : ℚ) (bounds : BBox) (padding : ℚ) :
    GroupState :=
  let targetZoom := fitToBoundsZoom cfg screenWidth screenHeight bounds padding
  let centerX := bounds.x + bounds.width / 2
  let centerY := bounds.y + bounds.height / 2
  immediateFitToBounds screenWidth screenHeight centerX centerY targetZoom

/-- The zoom stored by `ViewportManager.setViewport` (lines 1292-1314):
when a zoom is supplied it is clamped, otherwise the current zoom is
kept. -/
def setViewportZoom (cfg : ViewportConfigCore) (currentZoom : ℚ)
    (requested : Option ℚ) : ℚ :=
  match requested with
  | some z => clampZoom cfg z
  | none => currentZoom

/-- The caller-supplied partial `ChunkConfig` accepted by the
`ChunkedCanvas` constructor; absent fields are `none`. -/
structure ChunkConfigInput where
  chunkSize : Option ℚ
  preloadRadius : Option ℚ
  cacheSize : Option ℚ
  maxConcurrentLoads : Option ℚ
deriving DecidableEq, Repr

/-- The merged `ChunkConfig` as stored by the constructor. -/
structure ChunkConfigJS where
  chunkSize : ℚ
  preloadRadius : ℚ
  cacheSize : ℚ
  maxConcurrentLoads : ℚ
deriving DecidableEq, Repr

/-- The `ChunkedCanvas` constructor's configuration handling
(`renderer.ts` lines 148-155): a plain spread merge of the caller's
partial config over the defaults.  No field is inspected, so the
constructor cannot fail and performs no clamping. -/
def mkChunkConfig (c : ChunkConfigInput) : ChunkConfigJS :=
  ⟨c.chunkSize.getD 2000, c.preloadRadius.getD 2, c.cacheSize.getD 100,
    c.maxConcurrentLoads.getD 3⟩

/-- The caller-supplied partial zoom configuration accepted by the
`ViewportManager` constructor. -/
structure ViewportConfigInput where
  minZoom : Option ℚ
  maxZoom : Option ℚ
  defaultZoom : Option ℚ
  zoomStep : Option ℚ
deriving DecidableEq, Repr

/-- The `ViewportManager` constructor's configuration handling
(`ViewportManager.ts` lines 87-112): a spread merge over the defaults
`minZoom = 0.1`, `maxZoom = 20`, `defaultZoom = 1`, `zoomStep = 0.2`.
No validation is performed. -/
def mkViewportConfig (c : ViewportConfigInput) : ViewportConfigCore :=
  ⟨c.minZoom.getD (1 / 10), c.maxZoom.getD 20, c.defaultZoom.getD 1,
    c.zoomStep.getD (1 / 5)⟩

/-- The `visibleBounds` rectangle of a viewport (`minX/minY/maxX/maxY`). -/
structure VisibleBounds where
  minX : ℚ
  minY : ℚ
  maxX : ℚ
  maxY : ℚ
deriving DecidableEq, Repr

/-- The chunk id template literal `x_y` (`renderer.ts` line 258). -/
def chunkIdStr (x y : ℤ) : String :=
  toString x ++ "_" ++ toString y

/-- The index list produced by `for (let i = a; i <= b; i++)`. -/
def intRangeIncl (a b : ℤ) : List ℤ :=
  (List.range (b + 1 - a).toNat).map (fun i => a + i)

/-- `ChunkedCanvas.getVisibleChunkIds` (`renderer.ts` lines 245-263):
floor the min corner, ceil the max corner, and emit `x_y` for every pair
in the inclusive ranges, outer loop on `x`. -/
def getVisibleChunkIds (bounds : VisibleBounds) (chunkSize : ℚ) :
    List String :=
  let startX := ⌊bounds.minX / chunkSize⌋
  let startY := ⌊bounds.minY / chunkSize⌋
  let endX := ⌈bounds.maxX / chunkSize⌉
  let endY := ⌈bounds.maxY / chunkSize⌉
  (intRangeIncl startX endX).flatMap
    (fun x => (intRangeIncl startY endY).map (fun y => chunkIdStr x y))

theorem visibleChunkIds_eval :
    getVisibleChunkIds ⟨0, 0, 4000, 4000⟩ 2000 =
      ["0_0", "0_1", "0_2", "1_0", "1_1", "1_2", "2_0", "2_1", "2_2"] := by
  have h0 : ⌊(0 : ℚ) / 2000⌋ = 0 := by norm_num
  have h2 : ⌈(4000 : ℚ) / 2000⌉ = 2 := by norm_num
  show (intRangeIncl ⌊(0 : ℚ) / 2000⌋ ⌈(4000 : ℚ) / 2000⌉).flatMap
      (fun x => (intRangeIncl ⌊(0 : ℚ) / 2000⌋ ⌈(4000 : ℚ) / 2000⌉).map
        (fun y => chunkIdStr x y)) = _
  rw [h0, h2]
  decide

/-- C1: the claim states that for `visibleBounds = (0,0,4000,4000)` and
`chunkSize = 2000` the visible chunk id set is exactly
`"0_0", "0_1", "1_0", "1_1"`.  This is false: the inclusive `<=` loops over
the floor/ceil indices also produce the ids with coordinate 2, e.g.
`"2_2"`, which is not in the claimed set. -/
theorem c1_visible_set_counterexample :
    "2_2" ∈ getVisibleChunkIds ⟨0, 0, 4000, 4000⟩ 2000 ∧
      "2_2" ∉ (["0_0", "0_1", "1_0", "1_1"] : List String) := by
  refine ⟨?_, by decide⟩
  rw [visibleChunkIds_eval]
  decide

/-- C1 (amended): for `visibleBounds = (0,0,4000,4000)` and
`chunkSize = 2000`, `getVisibleChunkIds` returns exactly the nine ids
`x_y` with `x, y ∈ 0..2`: the loop runs from `floor(min/chunkSize)` to
`ceil(max/chunkSize)` inclusively on both ends. -/
theorem c1_visible_set_amended :
    getVisibleChunkIds ⟨0, 0, 4000, 4000⟩ 2000 =
      ["0_0", "0_1", "0_2", "1_0", "1_1", "1_2", "2_0", "2_1", "2_2"] :=
  visibleChunkIds_eval

/-- C2: for any screen point `p` and any zoom delta whose clamped new zoom
differs from the old zoom, the non-animated `zoomToPoint` leaves
`screenToWorld p` unchanged (exactly, in rational arithmetic; hence within
any floating-point epsilon).  Hypotheses: the configured `minZoom` is
positive and the current scale is nonzero, as guaranteed by the
constructor defaults and by clamping. -/
theorem c2_zoom_anchor_invariance (cfg : ViewportConfigCore)
    (g : GroupState) (p : Vec2) (delta : ℚ)
    (hmin : 0 < cfg.minZoom) (hscale : g.scale ≠ 0)
    (hne : clampZoom cfg (g.scale + delta) ≠ g.scale) :
    screenToWorld (zoomToPoint cfg g p delta) p = screenToWorld g p := by
  have hz : cfg.minZoom ≤ clampZoom cfg (g.scale + delta) := le_max_left _ _
  have hnz : clampZoom cfg (g.scale + delta) ≠ 0 := by
    intro h
    rw [h] at hz
    exact absurd (lt_of_lt_of_le hmin hz) (lt_irrefl 0)
  unfold zoomToPoint
  rw [if_neg (fun h => hne h.symm)]
  unfold immediateZoomToPoint screenToWorld worldToScreen
  simp only [Vec2.mk.injEq]
  constructor <;> · field_simp; ring

/-- Witness for C2 at a concrete input: config `(0.1, 20, 1, 0.2)`,
group at `(5, 7)` scale `2`, screen point `(3, 4)`, delta `1`. -/
theorem c2_zoom_anchor_invariance_witness :
    clampZoom ⟨1 / 10, 20, 1, 1 / 5⟩ ((2 : ℚ) + 1) ≠ 2 ∧
      screenToWorld (zoomToPoint ⟨1 / 10, 20, 1, 1 / 5⟩ ⟨5, 7, 2⟩ ⟨3, 4⟩ 1)
          ⟨3, 4⟩ =
        screenToWorld ⟨5, 7, 2⟩ ⟨3, 4⟩ := by
  have hne : clampZoom (⟨1 / 10, 20, 1, 1 / 5⟩ : ViewportConfigCore)
      ((2 : ℚ) + 1) ≠ 2 := by
    norm_num [clampZoom, min_def, max_def]
  exact ⟨hne,
    c2_zoom_anchor_invariance ⟨1 / 10, 20, 1, 1 / 5⟩ ⟨5, 7, 2⟩ ⟨3, 4⟩ 1
      (by norm_num) (by norm_num) hne⟩

/-- C5: the claim states every mutating viewport operation leaves the zoom
in `[minZoom, maxZoom]`, in particular `fitToBounds` never goes below
`minZoom`.  This is false: `fitToBounds` computes
`min(scaleX, scaleY, maxZoom)` with no lower clamp, so fitting a large
rectangle (here 100000 × 100000 into a padded 800 × 600 screen with the
default config) yields zoom `1/200 < minZoom = 1/10`. -/
theorem c5_zoom_range_counterexample :
    (fitToBounds ⟨1 / 10, 20, 1, 1 / 5⟩ ⟨0, 0, 1⟩ 800 600
        ⟨0, 0, 100000, 100000⟩ 50).scale <
      (⟨1 / 10, 20, 1, 1 / 5⟩ : ViewportConfigCore).minZoom := by
  norm_num [fitToBounds, fitToBoundsZoom, immediateFitToBounds, min_def]

/-- C5 (amended): `zoomToPoint`, `zoomToCenter` and `setViewport` (with a
requested zoom) keep the zoom in `[minZoom, maxZoom]` whenever
`minZoom ≤ maxZoom` and the current zoom is in range; `fitToBounds` is
only clamped from above by `maxZoom` and may fall below `minZoom`. -/
theorem c5_zoom_range_amended (cfg : ViewportConfigCore) (g : GroupState)
    (p : Vec2) (delta z screenW screenH padding : ℚ) (b : BBox)
    (hle : cfg.minZoom ≤ cfg.maxZoom)
    (hcur : cfg.minZoom ≤ g.scale ∧ g.scale ≤ cfg.maxZoom) :
    (cfg.minZoom ≤ (zoomToPoint cfg g p delta).scale ∧
        (zoomToPoint cfg g p delta).scale ≤ cfg.maxZoom) ∧
      (cfg.minZoom ≤ (zoomToCenter cfg g screenW screenH delta).scale ∧
        (zoomToCenter cfg g screenW screenH delta).scale ≤ cfg.maxZoom) ∧
      (cfg.minZoom ≤ setViewportZoom cfg g.scale (some z) ∧
        setViewportZoom cfg g.scale (some z) ≤ cfg.maxZoom) ∧
      (fitToBounds cfg g screenW screenH b padding).scale ≤ cfg.maxZoom := by
  have hclamp : ∀ w : ℚ, cfg.minZoom ≤ clampZoom cfg w ∧
      clampZoom cfg w ≤ cfg.maxZoom := by
    intro w
    exact ⟨le_max_left _ _, max_le hle (min_le_left _ _)⟩
  have hzp : ∀ q : Vec2, cfg.minZoom ≤ (zoomToPoint cfg g q delta).scale ∧
      (zoomToPoint cfg g q delta).scale ≤ cfg.maxZoom := by
    intro q
    unfold zoomToPoint
    by_cases h : g.scale = clampZoom cfg (g.scale + delta)
    · rw [if_pos h]
      exact hcur
    · rw [if_neg h]
      exact hclamp (g.scale + delta)
  refine ⟨hzp p, hzp ⟨screenW / 2, screenH / 2⟩, hclamp z, ?_⟩
  exact min_le_right _ _

/-- Witness for C5 (amended) at the default config and zoom 1. -/
theorem c5_zoom_range_amended_witness :
    ((1 : ℚ) / 10 ≤ 20 ∧ ((1 : ℚ) / 10 ≤ 1 ∧ (1 : ℚ) ≤ 20)) ∧
      ((1 : ℚ) / 10 ≤
          (zoomToPoint ⟨1 / 10, 20, 1, 1 / 5⟩ ⟨0, 0, 1⟩ ⟨3, 4⟩ 5).scale ∧
        (zoomToPoint ⟨1 / 10, 20, 1, 1 / 5⟩ ⟨0, 0, 1⟩ ⟨3, 4⟩ 5).scale ≤ 20) := by
  refine ⟨⟨by norm_num, by norm_num, by norm_num⟩, ?_⟩
  exact (c5_zoom_range_amended ⟨1 / 10, 20, 1, 1 / 5⟩ ⟨0, 0, 1⟩ ⟨3, 4⟩ 5 7 800
      600 50 ⟨0, 0, 10, 10⟩ (by norm_num) ⟨by norm_num, by norm_num⟩).1

/-- C8: the claim states invalid configurations (e.g. `minZoom > maxZoom`
or non-positive `chunkSize`) fail fatally at construction.  This is false:
both constructors merge the caller's partial config over the defaults with
no validation; the invalid values below are stored verbatim, with no
failure and no clamping. -/
theorem c8_config_validation_counterexample :
    (mkChunkConfig ⟨some (-1), none, none, none⟩).chunkSize = -1 ∧
      (mkViewportConfig ⟨some 5, some 1, none, none⟩).minZoom = 5 ∧
      (mkViewportConfig ⟨some 5, some 1, none, none⟩).maxZoom = 1 ∧
      (mkViewportConfig ⟨some 5, some 1, none, none⟩).maxZoom <
        (mkViewportConfig ⟨some 5, some 1, none, none⟩).minZoom := by
  refine ⟨rfl, rfl, rfl, ?_⟩
  show (1 : ℚ) < 5
  norm_num

/-- C8 (amended): construction never fails; the spread merge stores every
caller-supplied value verbatim — invalid values (inverted zoom range,
non-positive chunk size) are accepted silently, neither clamped nor
rejected. -/
theorem c8_config_validation_amended (a b c d : ℚ) :
    (mkChunkConfig ⟨some a, some b, some c, some d⟩).chunkSize = a ∧
      (mkChunkConfig ⟨some a, some b, some c, some d⟩).maxConcurrentLoads = d ∧
      (mkViewportConfig ⟨some a, some b, some c, some d⟩).minZoom = a ∧
      (mkViewportConfig ⟨some a, some b, some c, some d⟩).maxZoom = b ∧
      (mkChunkConfig ⟨none, none, none, none⟩).chunkSize = 2000 ∧
      (mkViewportConfig ⟨none, none, none, none⟩).minZoom = 1 / 10 ∧
      (mkViewportConfig ⟨none, none, none, none⟩).maxZoom = 20 :=
  ⟨rfl, rfl, rfl, rfl, rfl, rfl, rfl⟩

/-- Chunk ids are the strings `x_y` built at `renderer.ts` line 258 and
parsed back by `chunkId.split("_").map(Number)`; since that round-trip is
the identity on canonical ids, the engine model represents an id by the
integer pair itself. -/
abbrev ChunkId := ℤ × ℤ

/-- The `reason` tag of a `RenderPriority` (`types/chunked-canvas.ts`). -/
inductive Reason where
  | visible
  | preload
  | center
  | user
deriving DecidableEq, Repr

/-- `RenderPriority` from `types/chunked-canvas.ts`. -/
structure RenderPriority where
  priority : ℚ
  reason : Reason
  distance : ℚ
deriving DecidableEq, Repr

/-- `ChunkStatus` from `types/chunked-canvas.ts`. -/
inductive ChunkStatus where
  | unloaded
  | loading
  | loaded
  | rendering
  | rendered
  | unloading
deriving DecidableEq, Repr

/-- `ChunkMetadata` from `types/chunked-canvas.ts`.  `retryCount` is not a
declared field: `loadChunk` reads and writes it through `(chunk as any)`,
so it is `undefined` until first assigned — modelled as `Option ℕ`.  The
Konva layer handle is tracked separately in `chunkLayers`. -/
structure ChunkMetadata where
  id : ChunkId
  x : ℚ
  y : ℚ
  status : ChunkStatus
  objectCount : ℕ
  lastAccessTime : ℕ
  loadTime : ℚ
  renderTime : ℚ
  memoryUsage : ℕ
  retryCount : Option ℕ
deriving DecidableEq, Repr

/-- An entry of `loadQueue`/`renderQueue`: `{ chunkId, priority }`. -/
structure QItem where
  chunkId : ChunkId
  priority : RenderPriority
deriving DecidableEq, Repr

/-- `ChunkStats` from `types/chunked-canvas.ts`.  Counters are `ℤ`
because the source can decrement them below zero. -/
structure ChunkStats where
  totalChunks : ℤ
  loadedChunks : ℤ
  renderingChunks : ℤ
  cachedChunks : ℤ
  unloadedChunks : ℤ
  totalObjects : ℤ
  loadedObjects : ℤ
  averageLoadTime : ℚ
  averageRenderTime : ℚ
  memoryUsage : ℤ
deriving DecidableEq, Repr

/-- A record of one `this.emit(event, …)` call, reduced to the event name
and the chunk it concerns. -/
structure EventRec where
  name : String
  chunkId : ChunkId
deriving DecidableEq, Repr

/-- `LoadStrategy` from `types/chunked-canvas.ts`. -/
structure LoadStrategy where
  loadVisible : Bool
  visiblePriority : ℚ
  preloadEnabled : Bool
  preloadRadius : ℚ
  preloadPriority : ℚ
  lazyLoad : Bool
  lazyThreshold : ℚ
  retryOnFail : Bool
  maxRetries : ℕ
deriving DecidableEq, Repr

/-- The default load strategy set by the constructor
(`renderer.ts` lines 158-168). -/
def defaultLoadStrategy : LoadStrategy :=
  ⟨true, 100, true, 2, 50, true, 100, true, 3⟩

/-- The engine's runtime configuration.  `cacheSize` and
`maxConcurrentLoads` count collection elements, hence `ℕ` (the
unvalidated constructor merge is `mkChunkConfig` above). -/
structure EngineConfig where
  chunkSize : ℚ
  preloadRadius : ℚ
  cacheSize : ℕ
  maxConcurrentLoads : ℕ
deriving DecidableEq, Repr

/-- The mutable state of a `ChunkedCanvas` instance.  JS `Map`s are
insertion-ordered association lists, the `activeLoads` `Set` an
insertion-ordered list, and the cached `CanvasObject[]` payload is
abstracted to its length (the engine only ever reads `data.length` and
feeds the array to node creation). -/
structure EngineState where
  chunks : List (ChunkId × ChunkMetadata)
  chunkLayers : List ChunkId
  chunkDataCache : List (ChunkId × ℕ)
  loadQueue : List QItem
  renderQueue : List QItem
  activeLoads : List ChunkId
  stats : ChunkStats
  events : List EventRec
deriving DecidableEq, Repr

/-- `Map.prototype.get`. -/
def mapGet {α : Type} (m : List (ChunkId × α)) (k : ChunkId) : Option α :=
  (m.find? (fun e => e.1 = k)).map Prod.snd

/-- `Map.prototype.set`: replace in place when the key exists, append
otherwise. -/
def mapSet {α : Type} (m : List (ChunkId × α)) (k : ChunkId) (v : α) :
    List (ChunkId × α) :=
  if (m.find? (fun e => e.1 = k)).isSome then
    m.map (fun e => if e.1 = k then (k, v) else e)
  else m ++ [(k, v)]

/-- Mutation of the record object held in a `Map` through a reference
(e.g. `chunk.status = …` after `const chunk = this.chunks.get(id)!`). -/
def mapUpdate {α : Type} (m : List (ChunkId × α)) (k : ChunkId)
    (f : α → α) : List (ChunkId × α) :=
  m.map (fun e => if e.1 = k then (e.1, f e.2) else e)

/-- `Map.prototype.delete`. -/
def mapDelete {α : Type} (m : List (ChunkId × α)) (k : ChunkId) :
    List (ChunkId × α) :=
  m.filter (fun e => e.1 ≠ k)

/-- `Set.prototype.add`. -/
def setAdd (s : List ChunkId) (k : ChunkId) : List ChunkId :=
  if k ∈ s then s else s ++ [k]

/-- `Set.prototype.delete`. -/
def setDelete (s : List ChunkId) (k : ChunkId) : List ChunkId :=
  s.filter (fun e => e ≠ k)

/-- Insert `x` into `acc`, after every element `y` with `le y x`. -/
def insertLE {α : Type} (le : α → α → Bool) (x : α) : List α → List α
  | [] => [x]
  | y :: ys => if le y x then y :: insertLE le x ys else x :: y :: ys

/-- Left fold of `insertLE` over the input. -/
def stableSortAux {α : Type} (le : α → α → Bool) :
    List α → List α → List α
  | acc, [] => acc
  | acc, x :: xs => stableSortAux le (insertLE le x acc) xs

/-- `Array.prototype.sort` with a comparator inducing the total preorder
`le` (`le a b` ↔ comparator(a,b) ≤ 0): a stable sort, which for a total
preorder is the unique output placing tied elements in input order.  A
structurally recursive insertion formulation is used so the kernel can
evaluate it. -/
def jsSort {α : Type} (le : α → α → Bool) (xs : List α) : List α :=
  stableSortAux le [] xs

/-- `sortLoadQueue`/`sortRenderQueue` (`renderer.ts` lines 406-408 and
559-561): descending by `priority.priority`
(comparator `(a, b) => b.priority.priority - a.priority.priority`). -/
def sortQueue (q : List QItem) : List QItem :=
  jsSort (fun a b => b.priority.priority ≤ a.priority.priority) q

/-- `this.loadQueue[existingIndex].priority = priority` for the first
index whose `chunkId` matches (`findIndex` semantics). -/
def updateFirst (q : List QItem) (cid : ChunkId) (p : RenderPriority) :
    List QItem :=
  match q with
  | [] => []
  | item :: rest =>
    if item.chunkId = cid then { item with priority := p } :: rest
    else item :: updateFirst rest cid p

/-- The queue manipulation shared by `addToLoadQueue` and
`addToRenderQueue`: update the existing entry's priority only when the
new one is strictly higher (then re-sort), otherwise push and sort. -/
def queueUpsert (q : List QItem) (cid : ChunkId) (p : RenderPriority) :
    List QItem :=
  match q.find? (fun item => item.chunkId = cid) with
  | some existing =>
    if existing.priority.priority < p.priority then
      sortQueue (updateFirst q cid p)
    else q
  | none => sortQueue (q ++ [⟨cid, p⟩])

/-- `ChunkedCanvas.addToLoadQueue` (`renderer.ts` lines 365-401).  When
the id is not yet queued, a *fresh* `ChunkMetadata` record (status
`unloaded`, no `retryCount`) is written into `chunks`, overwriting any
existing record, and the totals are incremented. -/
def addToLoadQueue (cfg : EngineConfig) (now : ℕ) (s : EngineState)
    (chunkId : ChunkId) (priority : RenderPriority) : EngineState :=
  match s.loadQueue.find? (fun item => item.chunkId = chunkId) with
  | some existing =>
    if existing.priority.priority < priority.priority then
      { s with loadQueue := sortQueue (updateFirst s.loadQueue chunkId priority) }
    else s
  | none =>
    let chunk : ChunkMetadata :=
      { id := chunkId
        x := chunkId.1 * cfg.chunkSize
        y := chunkId.2 * cfg.chunkSize
        status := ChunkStatus.unloaded
        objectCount := 0
        lastAccessTime := now
        loadTime := 0
        renderTime := 0
        memoryUsage := 0
        retryCount := none }
    { s with
        loadQueue := sortQueue (s.loadQueue ++ [⟨chunkId, priority⟩])
        chunks := mapSet s.chunks chunkId chunk
        stats := { s.stats with
          totalChunks := s.stats.totalChunks + 1
          unloadedChunks := s.stats.unloadedChunks + 1 } }

/-- `ChunkedCanvas.addToRenderQueue` (`renderer.ts` lines 535-554). -/
def addToRenderQueue (s : EngineState) (chunkId : ChunkId)
    (priority : RenderPriority) : EngineState :=
  match s.renderQueue.find? (fun item => item.chunkId = chunkId) with
  | some existing =>
    if existing.priority.priority < priority.priority then
      { s with renderQueue := sortQueue (updateFirst s.renderQueue chunkId priority) }
    else s
  | none =>
    { s with renderQueue := sortQueue (s.renderQueue ++ [⟨chunkId, priority⟩]) }

/-- `ChunkedCanvas.onChunkDataLoaded` (`renderer.ts` lines 507-530).
`freshPriority` stands for the value of
`this.calculateCurrentPriority(chunkId)` at line 521.  Modelled from the
spec: `calculateCurrentPriority` is called but defined nowhere under
`src/`; spec §4.3 says the chunk is pushed to the render queue "with a
freshly computed priority", so that freshly computed value is passed in
as a parameter. -/
def onChunkDataLoaded (s : EngineState) (chunkId : ChunkId) (dataLen : ℕ)
    (now : ℕ) (freshPriority : RenderPriority) : EngineState :=
  let s1 := { s with
    chunks := mapUpdate s.chunks chunkId (fun c =>
      { c with status := ChunkStatus.loaded, objectCount := dataLen,
               lastAccessTime := now })
    stats := { s.stats with
      totalObjects := s.stats.totalObjects + (dataLen : ℤ)
      loadedObjects := s.stats.loadedObjects + (dataLen : ℤ) } }
  let s2 := addToRenderQueue s1 chunkId freshPriority
  { s2 with events := s2.events ++ [({ name := "chunk-loaded", chunkId := chunkId } : EventRec)] }

/-- The JS comparison `x < n` where `x` may be `undefined`: `undefined`
converts to `NaN`, and every `NaN` comparison yields `false`. -/
def jsUndefLt (x : Option ℕ) (n : ℕ) : Bool :=
  match x with
  | none => false
  | some k => decide (k < n)

/-- The settled outcome of the asynchronous `fetchChunkData` call. -/
inductive FetchOutcome where
  | success (dataLen : ℕ)
  | failure
deriving DecidableEq, Repr

/-- `ChunkedCanvas.loadChunk` (`renderer.ts` lines 448-502) with the
asynchronous fetch replaced by its settled outcome and timestamps passed
in.  `Except.error` models the uncaught `TypeError` from
`this.chunks.get(chunkId)!` when the record is absent.  The cache-hit
branch (lines 461-465) returns *before* the `try`/`finally`, so
`activeLoads.delete(chunkId)` (line 500) does not run on that path. -/
def loadChunk (strat : LoadStrategy) (cfg : EngineConfig) (now : ℕ)
    (fetch : FetchOutcome) (loadDuration : ℚ)
    (freshPriority : RenderPriority) (s : EngineState) (chunkId : ChunkId)
    (priority : RenderPriority) : Except Unit EngineState :=
  match mapGet s.chunks chunkId with
  | none => Except.error ()
  | some _ =>
    let s0 := { s with
      chunks := mapUpdate s.chunks chunkId
        (fun c => { c with status := ChunkStatus.loading })
      activeLoads := setAdd s.activeLoads chunkId
      stats := { s.stats with
        unloadedChunks := s.stats.unloadedChunks - 1
        loadedChunks := s.stats.loadedChunks + 1 } }
    match mapGet s0.chunkDataCache chunkId with
    | some cachedLen =>
      Except.ok (onChunkDataLoaded s0 chunkId cachedLen now freshPriority)
    | none =>
      match fetch with
      | FetchOutcome.success dataLen =>
        let s1 := { s0 with
          chunks := mapUpdate s0.chunks chunkId
            (fun c => { c with loadTime := loadDuration })
          stats := { s0.stats with
            averageLoadTime :=
              (s0.stats.averageLoadTime * ((s0.stats.loadedChunks : ℚ) - 1)
                  + loadDuration) / (s0.stats.loadedChunks : ℚ) } }
        let s2 := { s1 with
          chunkDataCache := mapSet s1.chunkDataCache chunkId dataLen }
        let s3 := onChunkDataLoaded s2 chunkId dataLen now freshPriority
        Except.ok { s3 with activeLoads := setDelete s3.activeLoads chunkId }
      | FetchOutcome.failure =>
        let rc := (mapGet s0.chunks chunkId).bind (fun c => c.retryCount)
        let s4 :=
          if strat.retryOnFail && jsUndefLt rc strat.maxRetries then
            let s' := { s0 with
              chunks := mapUpdate s0.chunks chunkId (fun c =>
                { c with retryCount := some (c.retryCount.getD 0 + 1) }) }
            addToLoadQueue cfg now s' chunkId priority
          else
            { s0 with
              chunks := mapUpdate s0.chunks chunkId
                (fun c => { c with status := ChunkStatus.unloaded })
              stats := { s0.stats with
                loadedChunks := s0.stats.loadedChunks - 1
                unloadedChunks := s0.stats.unloadedChunks + 1 } }
        Except.ok { s4 with activeLoads := setDelete s4.activeLoads chunkId }

/-- The queue-popping step of `ChunkedCanvas.processLoadQueue`
(`renderer.ts` lines 426-443): when below the concurrency cap, splice
`maxConcurrentLoads - activeLoads.size` items off the head of the sorted
queue; these are then passed to `loadChunk` one by one. -/
def processLoadQueuePop (cfg : EngineConfig) (s : EngineState) :
    List QItem × EngineState :=
  if cfg.maxConcurrentLoads ≤ s.activeLoads.length ∨ s.loadQueue = [] then
    ([], s)
  else
    let n := cfg.maxConcurrentLoads - s.activeLoads.length
    (s.loadQueue.take n, { s with loadQueue := s.loadQueue.drop n })

/-- `frameBudget` (`renderer.ts` line 135). -/
def frameBudget : ℕ := 5

/-- The splice performed by `ChunkedCanvas.processRenderQueue`
(`renderer.ts` line 572): pop up to `frameBudget` items; the popped
batch goes to `renderChunks` via `setTimeout`. -/
def processRenderQueuePop (s : EngineState) : List QItem × EngineState :=
  (s.renderQueue.take frameBudget,
    { s with renderQueue := s.renderQueue.drop frameBudget })

/-- `ChunkedCanvas.renderChunkLayer` (`renderer.ts` lines 635-675)
reduced to its state effects: a layer built from the cached data
(`… || []` when absent) is registered for the chunk, and the chunk's
memory estimate becomes 1024 bytes per node
(`estimateLayerMemoryUsage`, lines 817-821). -/
def renderChunkLayer (s : EngineState) (chunkId : ChunkId) : EngineState :=
  let dataLen := (mapGet s.chunkDataCache chunkId).getD 0
  { s with
    chunkLayers := setAdd s.chunkLayers chunkId
    chunks := mapUpdate s.chunks chunkId
      (fun c => { c with memoryUsage := dataLen * 1024 }) }

/-- `ChunkedCanvas.updateMemoryStats` (`renderer.ts` lines 804-812). -/
def updateMemoryStats (s : EngineState) : EngineState :=
  { s with stats := { s.stats with
      memoryUsage := (s.chunks.map (fun e => (e.2.memoryUsage : ℤ))).sum } }

/-- One iteration of the `forEach` body in `ChunkedCanvas.renderChunks`
(`renderer.ts` lines 593-625).  `failRender` lists the chunks whose
`renderChunkLayer` call throws; such an exception is caught by the inner
`try`/`catch`, which resets the status to `loaded` (and the `finally`
decrements `renderingChunks`).  The initial
`this.chunks.get(chunkId)!.status` dereference is *outside* that `try`,
so a missing record raises an uncaught `TypeError`, modelled as
`Except.error`. -/
def renderOne (failRender : List ChunkId) (renderStart nowMs : ℚ)
    (s : EngineState) (item : QItem) : Except Unit EngineState :=
  match mapGet s.chunks item.chunkId with
  | none => Except.error ()
  | some chunk =>
    if chunk.status = ChunkStatus.loaded then
      let s0 := { s with
        chunks := mapUpdate s.chunks item.chunkId
          (fun c => { c with status := ChunkStatus.rendering })
        stats := { s.stats with
          renderingChunks := s.stats.renderingChunks + 1 } }
      if item.chunkId ∈ failRender then
        Except.ok { s0 with
          chunks := mapUpdate s0.chunks item.chunkId
            (fun c => { c with status := ChunkStatus.loaded })
          stats := { s0.stats with
            renderingChunks := s0.stats.renderingChunks - 1 } }
      else
        let s1 := renderChunkLayer s0 item.chunkId
        let s2 := { s1 with
          chunks := mapUpdate s1.chunks item.chunkId (fun c =>
            { c with status := ChunkStatus.rendered,
                     renderTime := nowMs - renderStart })
          stats := { s1.stats with
            averageRenderTime :=
              (s1.stats.averageRenderTime * ((s1.stats.loadedChunks : ℚ) - 1)
                  + (nowMs - renderStart)) / (s1.stats.loadedChunks : ℚ) }
          events := s1.events ++ [({ name := "chunk-rendered", chunkId := item.chunkId } : EventRec)] }
        Except.ok { s2 with
          stats := { s2.stats with
            renderingChunks := s2.stats.renderingChunks - 1 } }
    else
      Except.ok s

/-- `ChunkedCanvas.renderChunks` (`renderer.ts` lines 588-630): process
the popped batch in order; an uncaught exception from one item
propagates out of the `forEach`, so the remaining items are not
processed and the final `updateMemoryStats` call is skipped. -/
def renderChunks (failRender : List ChunkId) (renderStart nowMs : ℚ)
    (s : EngineState) : List QItem → Except Unit EngineState
  | [] => Except.ok (updateMemoryStats s)
  | item :: rest =>
    match renderOne failRender renderStart nowMs s item with
    | Except.error e => Except.error e
    | Except.ok s' => renderChunks failRender renderStart nowMs s' rest

/-- `chunk?.lastAccessTime || 0` for the record behind a cache entry
(`renderer.ts` line 783): the time recorded in `chunks`, or 0 when the
record no longer exists. -/
def accessTime (s : EngineState) (cid : ChunkId) : ℕ :=
  ((mapGet s.chunks cid).map (fun c => c.lastAccessTime)).getD 0

/-- `ChunkedCanvas.cleanupCache` (`renderer.ts` lines 771-799): when the
cache exceeds `cacheSize`, map every cache entry to
`(chunkId, data, chunk?.lastAccessTime || 0)`, sort ascending by that
time (stable), and delete the first `size - cacheSize` entries from the
cache.  Residency of the originating chunk is not consulted. -/
def cleanupCache (cfg : EngineConfig) (s : EngineState) : EngineState :=
  if s.chunkDataCache.length ≤ cfg.cacheSize then s
  else
    let cacheEntries :=
      jsSort (fun a b => a.2.2 ≤ b.2.2)
        (s.chunkDataCache.map (fun e => (e.1, e.2, accessTime s e.1)))
    let itemsToRemove :=
      cacheEntries.take (s.chunkDataCache.length - cfg.cacheSize)
    let newCache :=
      itemsToRemove.foldl (fun c item => mapDelete c item.1) s.chunkDataCache
    { s with
      chunkDataCache := newCache
      stats := { s.stats with cachedChunks := (newCache.length : ℤ) } }

/-- `ChunkedCanvas.cleanupChunkMemory` (`renderer.ts` lines 760-766). -/
def cleanupChunkMemory (cfg : EngineConfig) (s : EngineState) :
    EngineState :=
  if cfg.cacheSize < s.chunkDataCache.length then cleanupCache cfg s else s

/-- All-zero statistics, as initialised by the constructor
(`renderer.ts` lines 177-188). -/
def initStats : ChunkStats := ⟨0, 0, 0, 0, 0, 0, 0, 0, 0, 0⟩

/-- A chunk record with the given status and access time and otherwise
default fields, as `addToLoadQueue` creates. -/
def mkMeta (cid : ChunkId) (st : ChunkStatus) (access : ℕ) :
    ChunkMetadata :=
  { id := cid, x := 0, y := 0, status := st, objectCount := 0,
    lastAccessTime := access, loadTime := 0, renderTime := 0,
    memoryUsage := 0, retryCount := none }

theorem insertLE_perm {α : Type} (le : α → α → Bool) (x : α) (l : List α) :
    (insertLE le x l).Perm (x :: l) := by
  induction l with
  | nil => simp [insertLE]
  | cons y ys ih =>
    unfold insertLE
    by_cases h : le y x = true
    · rw [if_pos h]
      exact (ih.cons y).trans (List.Perm.swap x y ys)
    · rw [if_neg h]

theorem stableSortAux_perm {α : Type} (le : α → α → Bool) (xs : List α) :
    ∀ acc, (stableSortAux le acc xs).Perm (acc ++ xs) := by
  induction xs with
  | nil => intro acc; simp [stableSortAux]
  | cons x xs ih =>
    intro acc
    simp only [stableSortAux]
    have h1 := ih (insertLE le x acc)
    have h2 : (insertLE le x acc ++ xs).Perm ((x :: acc) ++ xs) :=
      (insertLE_perm le x acc).append_right xs
    have h3 : ((x :: acc) ++ xs).Perm (acc ++ x :: xs) := List.perm_middle.symm
    exact (h1.trans h2).trans h3

theorem jsSort_perm {α : Type} (le : α → α → Bool) (xs : List α) :
    (jsSort le xs).Perm xs := by
  have h := stableSortAux_perm le xs []
  simpa [jsSort] using h

theorem insertLE_pairwise {α : Type} {le : α → α → Bool}
    (htot : ∀ a b, (le a b || le b a) = true)
    (htrans : ∀ a b c, le a b = true → le b c = true → le a c = true)
    (x : α) {l : List α} (h : l.Pairwise (fun a b => le a b = true)) :
    (insertLE le x l).Pairwise (fun a b => le a b = true) := by
  induction l with
  | nil => simp [insertLE]
  | cons y ys ih =>
    rcases List.pairwise_cons.mp h with ⟨hy, hys⟩
    unfold insertLE
    by_cases hyx : le y x = true
    · rw [if_pos hyx]
      refine List.pairwise_cons.mpr ⟨?_, ih hys⟩
      intro z hz
      have hz' := (insertLE_perm le x ys).mem_iff.mp hz
      rcases List.mem_cons.mp hz' with rfl | hz2
      · exact hyx
      · exact hy z hz2
    · rw [if_neg hyx]
      have hxy : le x y = true := by
        have ht := htot y x
        rcases Bool.or_eq_true_iff.mp ht with h1 | h1
        · exact absurd h1 hyx
        · exact h1
      refine List.pairwise_cons.mpr ⟨?_, h⟩
      intro z hz
      rcases List.mem_cons.mp hz with rfl | hz
      · exact hxy
      · exact htrans x y z hxy (hy z hz)

theorem stableSortAux_pairwise {α : Type} {le : α → α → Bool}
    (htot : ∀ a b, (le a b || le b a) = true)
    (htrans : ∀ a b c, le a b = true → le b c = true → le a c = true)
    (xs : List α) :
    ∀ acc, acc.Pairwise (fun a b => le a b = true) →
      (stableSortAux le acc xs).Pairwise (fun a b => le a b = true) := by
  induction xs with
  | nil => intro acc h; exact h
  | cons x xs ih =>
    intro acc h
    simp only [stableSortAux]
    exact ih _ (insertLE_pairwise htot htrans x h)

theorem jsSort_pairwise {α : Type} {le : α → α → Bool}
    (htot : ∀ a b, (le a b || le b a) = true)
    (htrans : ∀ a b c, le a b = true → le b c = true → le a c = true)
    (xs : List α) :
    (jsSort le xs).Pairwise (fun a b => le a b = true) :=
  stableSortAux_pairwise htot htrans xs [] List.Pairwise.nil

theorem find?_key_of_mem_nodup {α κ : Type} [DecidableEq κ] (key : α → κ)
    {l : List α} {x : α} (hn : (l.map key).Nodup) (hx : x ∈ l) :
    l.find? (fun a => key a = key x) = some x := by
  induction l with
  | nil => cases hx
  | cons a t ih =>
    rw [List.map_cons, List.nodup_cons] at hn
    rcases List.mem_cons.mp hx with rfl | hxt
    · rw [List.find?_cons_of_pos _ (by simp)]
    · have hne : key a ≠ key x := by
        intro hcontra
        exact hn.1 (hcontra ▸ List.mem_map_of_mem key hxt)
      rw [List.find?_cons_of_neg _ (by simp [hne]), ih hn.2 hxt]

theorem length_updateFirst (q : List QItem) (cid : ChunkId)
    (p : RenderPriority) : (updateFirst q cid p).length = q.length := by
  induction q with
  | nil => rfl
  | cons a t ih =>
    unfold updateFirst
    by_cases h : a.chunkId = cid <;> simp [h, ih]

theorem updateFirst_map_chunkId (q : List QItem) (cid : ChunkId)
    (p : RenderPriority) :
    (updateFirst q cid p).map (fun i => i.chunkId) =
      q.map (fun i => i.chunkId) := by
  induction q with
  | nil => rfl
  | cons a t ih =>
    unfold updateFirst
    by_cases h : a.chunkId = cid <;> simp [h, ih]

theorem mem_updateFirst_of_find? {q : List QItem} {cid : ChunkId}
    {e : QItem} (p : RenderPriority)
    (h : q.find? (fun i => i.chunkId = cid) = some e) :
    ({ e with priority := p } : QItem) ∈ updateFirst q cid p := by
  induction q with
  | nil => simp [List.find?] at h
  | cons a t ih =>
    by_cases ha : a.chunkId = cid
    · rw [List.find?_cons_of_pos _ (by simp [ha])] at h
      injection h with h
      subst h
      unfold updateFirst
      rw [if_pos ha]
      exact List.mem_cons_self _ _
    · rw [List.find?_cons_of_neg _ (by simp [ha])] at h
      unfold updateFirst
      rw [if_neg ha]
      exact List.mem_cons_of_mem _ (ih h)

theorem queueUpsert_existing {q : List QItem} {e : QItem}
    (p : RenderPriority) (hn : (q.map (fun i => i.chunkId)).Nodup)
    (he : e ∈ q) :
    (queueUpsert q e.chunkId p).length = q.length ∧
      (queueUpsert q e.chunkId p).find? (fun i => i.chunkId = e.chunkId) =
        some (if e.priority.priority < p.priority then
          ({ e with priority := p } : QItem) else e) := by
  have hfind : q.find? (fun i => i.chunkId = e.chunkId) = some e :=
    find?_key_of_mem_nodup (fun i => i.chunkId) hn he
  unfold queueUpsert
  rw [hfind]
  show (if e.priority.priority < p.priority then
        sortQueue (updateFirst q e.chunkId p) else q).length = q.length ∧
    (if e.priority.priority < p.priority then
        sortQueue (updateFirst q e.chunkId p) else q).find?
        (fun i => i.chunkId = e.chunkId) =
      some (if e.priority.priority < p.priority then
        ({ e with priority := p } : QItem) else e)
  by_cases hp : e.priority.priority < p.priority
  · simp only [if_pos hp]
    refine ⟨?_, ?_⟩
    · have h1 : (sortQueue (updateFirst q e.chunkId p)).length =
          (updateFirst q e.chunkId p).length :=
        (jsSort_perm _ _).length_eq
      rw [h1, length_updateFirst]
    · have hmem : ({ e with priority := p } : QItem) ∈
          sortQueue (updateFirst q e.chunkId p) :=
        (jsSort_perm _ _).mem_iff.mpr (mem_updateFirst_of_find? p hfind)
      have hperm : ((sortQueue (updateFirst q e.chunkId p)).map
            (fun i => i.chunkId)).Perm
          ((updateFirst q e.chunkId p).map (fun i => i.chunkId)) :=
        (jsSort_perm _ _).map _
      have hn' : ((sortQueue (updateFirst q e.chunkId p)).map
          (fun i => i.chunkId)).Nodup := by
        refine hperm.nodup_iff.mpr ?_
        rw [updateFirst_map_chunkId]
        exact hn
      exact find?_key_of_mem_nodup (fun i => i.chunkId) hn' hmem
  · simp only [if_neg hp]
    exact ⟨trivial, hfind⟩

theorem addToLoadQueue_queue (cfg : EngineConfig) (now : ℕ)
    (s : EngineState) (cid : ChunkId) (p : RenderPriority) :
    (addToLoadQueue cfg now s cid p).loadQueue =
      queueUpsert s.loadQueue cid p := by
  unfold addToLoadQueue queueUpsert
  cases h : s.loadQueue.find? (fun item => item.chunkId = cid) with
  | none => rfl
  | some existing =>
    by_cases hp : existing.priority.priority < p.priority <;> simp [hp]

theorem addToRenderQueue_queue (s : EngineState) (cid : ChunkId)
    (p : RenderPriority) :
    (addToRenderQueue s cid p).renderQueue =
      queueUpsert s.renderQueue cid p := by
  unfold addToRenderQueue queueUpsert
  cases h : s.renderQueue.find? (fun item => item.chunkId = cid) with
  | none => rfl
  | some existing =>
    by_cases hp : existing.priority.priority < p.priority <;> simp [hp]

/-- The engine state for the cache-hit evaluation: one known chunk whose
payload is already in the data cache, no load in flight. -/
def c3State : EngineState :=
  { chunks := [((0, 0), mkMeta (0, 0) ChunkStatus.unloaded 10)]
    chunkLayers := []
    chunkDataCache := [((0, 0), 5)]
    loadQueue := []
    renderQueue := []
    activeLoads := []
    stats := initStats
    events := [] }

/-- C3: evaluating `loadChunk` on a chunk whose payload is cached.  The
fetch is bypassed (the outcome passed in is `failure`, yet the load
succeeds from the cache) and the chunk reaches the render queue — but the
call completes with the id still in `activeLoads`: the cache-hit `return`
precedes the `try`/`finally`, so `activeLoads.delete` never runs and the
hit permanently consumes a `maxConcurrentLoads` slot, contradicting the
claim that the in-flight count is unchanged once the call completes. -/
theorem c3_cache_hit_keeps_active_load :
    (loadChunk defaultLoadStrategy ⟨2000, 2, 100, 3⟩ 99 FetchOutcome.failure
        0 ⟨100, Reason.visible, 0⟩ c3State (0, 0)
        ⟨100, Reason.visible, 0⟩).map
      (fun s => (s.activeLoads, s.renderQueue.map (fun i => i.chunkId),
        (mapGet s.chunks (0, 0)).map (fun c => c.status),
        s.events.map (fun e => e.name))) =
    Except.ok ([(0, 0)], [(0, 0)], some ChunkStatus.loaded,
      ["chunk-loaded"]) := rfl

/-- The engine state for the first-failure evaluation: one known chunk
(fresh record, so its `retryCount` expando is still `undefined`), nothing
cached. -/
def c4State : EngineState :=
  { chunks := [((0, 0), mkMeta (0, 0) ChunkStatus.unloaded 10)]
    chunkLayers := []
    chunkDataCache := []
    loadQueue := []
    renderQueue := []
    activeLoads := []
    stats := initStats
    events := [] }

/-- C4: evaluating `loadChunk` on a fresh chunk whose fetch fails, with
the default strategy (`retryOnFail = true`, `maxRetries = 3`).  The
guard `(chunk as any).retryCount < maxRetries` compares `undefined` with
3, which is `false` in JS, so the very first failure skips the retry
branch: the chunk is marked `unloaded` and is not re-enqueued —
contradicting the claim that it is retried up to `maxRetries` times. -/
theorem c4_first_failure_never_retries :
    defaultLoadStrategy.retryOnFail = true ∧
    defaultLoadStrategy.maxRetries = 3 ∧
    (loadChunk defaultLoadStrategy ⟨2000, 2, 100, 3⟩ 99 FetchOutcome.failure
        0 ⟨100, Reason.visible, 0⟩ c4State (0, 0)
        ⟨100, Reason.visible, 0⟩).map
      (fun s => ((mapGet s.chunks (0, 0)).map (fun c => c.status),
        s.loadQueue.map (fun i => i.chunkId), s.activeLoads)) =
    Except.ok (some ChunkStatus.unloaded, [], []) :=
  ⟨rfl, rfl, rfl⟩

/-- The engine state for the batch-abort evaluation: chunk `(1,0)` is
loaded and ready to render; chunk `(0,0)` has no record (it was removed
by a concurrent unload after the batch was popped). -/
def c7State : EngineState :=
  { chunks := [((1, 0), mkMeta (1, 0) ChunkStatus.loaded 10)]
    chunkLayers := []
    chunkDataCache := []
    loadQueue := []
    renderQueue := []
    activeLoads := []
    stats := initStats
    events := [] }

/-- C7: a batch whose first item's chunk record was removed by a
concurrent unload.  The `this.chunks.get(chunkId)!.status` dereference
sits *outside* the per-chunk `try`/`catch`, so it raises an uncaught
`TypeError` that escapes the loop (first conjunct) and the loaded chunk
behind it in the batch is never processed — although processing it alone
would have rendered it (second conjunct).  This contradicts the claim
that no exception escapes and that the remaining chunks still render. -/
theorem c7_missing_record_aborts_batch :
    renderChunks [] 0 0 c7State
        [⟨(0, 0), ⟨100, Reason.visible, 0⟩⟩,
          ⟨(1, 0), ⟨100, Reason.visible, 0⟩⟩] = Except.error () ∧
    (renderOne [] 0 0 c7State ⟨(1, 0), ⟨100, Reason.visible, 0⟩⟩).map
        (fun s => (mapGet s.chunks (1, 0)).map (fun c => c.status)) =
      Except.ok (some ChunkStatus.rendered) :=
  ⟨rfl, rfl⟩

/-- C10: a work item whose chunk record exists but is not in the
`loaded` state at processing time is silently discarded by the per-item
processing of `renderChunks`: the state is returned unchanged, so the
chunk is not rendered, no event is emitted for it, and it is not
re-enqueued. -/
theorem c10_non_loaded_item_dropped (failRender : List ChunkId)
    (renderStart nowMs : ℚ) (s : EngineState) (item : QItem)
    (meta : ChunkMetadata)
    (hget : mapGet s.chunks item.chunkId = some meta)
    (hstatus : meta.status ≠ ChunkStatus.loaded) :
    renderOne failRender renderStart nowMs s item = Except.ok s := by
  unfold renderOne
  rw [hget]
  simp [hstatus]

/-- The engine state for the C10 witness: the queued chunk's record is
already `rendered`. -/
def c10State : EngineState :=
  { chunks := [((0, 0), mkMeta (0, 0) ChunkStatus.rendered 10)]
    chunkLayers := []
    chunkDataCache := []
    loadQueue := []
    renderQueue := []
    activeLoads := []
    stats := initStats
    events := [] }

/-- Witness for C10 at a concrete input: a record in state `rendered` is
skipped and the state is untouched. -/
theorem c10_non_loaded_item_dropped_witness :
    mapGet c10State.chunks (0, 0) =
        some (mkMeta (0, 0) ChunkStatus.rendered 10) ∧
      (mkMeta (0, 0) ChunkStatus.rendered 10).status ≠ ChunkStatus.loaded ∧
      renderOne [] 0 0 c10State ⟨(0, 0), ⟨100, Reason.visible, 0⟩⟩ =
        Except.ok c10State :=
  ⟨rfl, by decide,
    c10_non_loaded_item_dropped [] 0 0 c10State
      ⟨(0, 0), ⟨100, Reason.visible, 0⟩⟩
      (mkMeta (0, 0) ChunkStatus.rendered 10) rfl (by decide)⟩

/-- The engine state for the C9 witness: one pending entry in each
queue. -/
def c9State : EngineState :=
  { chunks := []
    chunkLayers := []
    chunkDataCache := []
    loadQueue := [⟨(0, 0), ⟨50, Reason.preload, 0⟩⟩]
    renderQueue := [⟨(1, 1), ⟨50, Reason.preload, 0⟩⟩]
    activeLoads := []
    stats := initStats
    events := [] }

/-- The pending load-queue entry used by the C9 witness. -/
def c9e1 : QItem := ⟨(0, 0), ⟨50, Reason.preload, 0⟩⟩

/-- The pending render-queue entry used by the C9 witness. -/
def c9e2 : QItem := ⟨(1, 1), ⟨50, Reason.preload, 0⟩⟩

/-- The re-enqueue priority used by the C9 witness. -/
def c9p : RenderPriority := ⟨100, Reason.visible, 0⟩

/-- The engine configuration used by the concrete engine evaluations. -/
def c9cfg : EngineConfig := ⟨2000, 2, 100, 3⟩

/-- C9: re-enqueuing a chunk id already pending in the load queue or the
render queue never changes that queue's length, and the entry found for
that id afterwards carries the new priority exactly when it is strictly
higher than the stored one, and the unchanged entry otherwise.  `Nodup`
of the queued ids is the queue invariant (an id is pushed only when
absent). -/
theorem c9_no_duplicate_work (cfg : EngineConfig) (now : ℕ)
    (s : EngineState) (p : RenderPriority) (e₁ e₂ : QItem)
    (hn₁ : (s.loadQueue.map (fun i => i.chunkId)).Nodup)
    (hn₂ : (s.renderQueue.map (fun i => i.chunkId)).Nodup)
    (h₁ : e₁ ∈ s.loadQueue) (h₂ : e₂ ∈ s.renderQueue) :
    ((addToLoadQueue cfg now s e₁.chunkId p).loadQueue.length =
        s.loadQueue.length ∧
      (addToLoadQueue cfg now s e₁.chunkId p).loadQueue.find?
          (fun i => i.chunkId = e₁.chunkId) =
        some (if e₁.priority.priority < p.priority then
          ({ e₁ with priority := p } : QItem) else e₁)) ∧
    ((addToRenderQueue s e₂.chunkId p).renderQueue.length =
        s.renderQueue.length ∧
      (addToRenderQueue s e₂.chunkId p).renderQueue.find?
          (fun i => i.chunkId = e₂.chunkId) =
        some (if e₂.priority.priority < p.priority then
          ({ e₂ with priority := p } : QItem) else e₂)) := by
  rw [addToLoadQueue_queue, addToRenderQueue_queue]
  exact ⟨queueUpsert_existing p hn₁ h₁, queueUpsert_existing p hn₂ h₂⟩

/-- Witness for C9 at a concrete input: each queue holds one entry with
priority 50 and the same id is re-enqueued with priority 100. -/
theorem c9_no_duplicate_work_witness :
    ((c9State.loadQueue.map (fun i => i.chunkId)).Nodup ∧
      (c9State.renderQueue.map (fun i => i.chunkId)).Nodup ∧
      c9e1 ∈ c9State.loadQueue ∧ c9e2 ∈ c9State.renderQueue) ∧
    (((addToLoadQueue c9cfg 0 c9State c9e1.chunkId c9p).loadQueue.length =
          c9State.loadQueue.length ∧
        (addToLoadQueue c9cfg 0 c9State c9e1.chunkId c9p).loadQueue.find?
            (fun i => i.chunkId = c9e1.chunkId) =
          some (if c9e1.priority.priority < c9p.priority then
            ({ c9e1 with priority := c9p } : QItem) else c9e1)) ∧
      ((addToRenderQueue c9State c9e2.chunkId c9p).renderQueue.length =
          c9State.renderQueue.length ∧
        (addToRenderQueue c9State c9e2.chunkId c9p).renderQueue.find?
            (fun i => i.chunkId = c9e2.chunkId) =
          some (if c9e2.priority.priority < c9p.priority then
            ({ c9e2 with priority := c9p } : QItem) else c9e2))) :=
  ⟨⟨by decide, by decide, by decide, by decide⟩,
    c9_no_duplicate_work c9cfg 0 c9State c9p c9e1 c9e2 (by decide)
      (by decide) (by decide) (by decide)⟩

theorem mem_foldl_mapDelete {α β : Type} (key : β → ChunkId)
    (items : List β) (cache : List (ChunkId × α)) (a : ChunkId × α) :
    a ∈ items.foldl (fun c item => mapDelete c (key item)) cache ↔
      a ∈ cache ∧ a.1 ∉ items.map key := by
  induction items generalizing cache with
  | nil => simp
  | cons it its ih =>
    simp only [List.foldl_cons, List.map_cons, List.mem_cons]
    rw [ih]
    unfold mapDelete
    simp only [List.mem_filter, decide_eq_true_eq, not_or, ne_eq,
      decide_not, Bool.not_eq_true', decide_eq_false_iff_not]
    tauto

theorem take_sorted_le_drop {β : Type} (le : β → β → Bool)
    (htot : ∀ a b, (le a b || le b a) = true)
    (htrans : ∀ a b c, le a b = true → le b c = true → le a c = true)
    (xs : List β) (k : ℕ) {a b : β}
    (ha : a ∈ (jsSort le xs).take k) (hb : b ∈ (jsSort le xs).drop k) :
    le a b = true := by
  have hpw := jsSort_pairwise htot htrans xs
  rw [← List.take_append_drop k (jsSort le xs)] at hpw
  exact (List.pairwise_append.mp hpw).2.2 a ha b hb

/-- The engine state for the C6 counterexample: three chunks, all
resident (`rendered`, with live layers), with access times 1, 2, 3, and
all three payloads cached. -/
def c6State : EngineState :=
  { chunks := [((0, 0), mkMeta (0, 0) ChunkStatus.rendered 1),
               ((0, 1), mkMeta (0, 1) ChunkStatus.rendered 2),
               ((1, 0), mkMeta (1, 0) ChunkStatus.rendered 3)]
    chunkLayers := [(0, 0), (0, 1), (1, 0)]
    chunkDataCache := [((0, 0), 1), ((0, 1), 1), ((1, 0), 1)]
    loadQueue := []
    renderQueue := []
    activeLoads := []
    stats := initStats
    events := [] }

/-- C6: the claim says eviction chooses only among entries whose chunk is
not currently resident/visible.  This is false: with `cacheSize = 2` and
three cached entries whose chunks are all resident (status `rendered`,
live layers), `cleanupCache` still evicts the one with the oldest access
time — the entry of chunk `(0,0)`, which is resident. -/
theorem c6_eviction_counterexample :
    (mapGet c6State.chunks (0, 0)).map (fun c => c.status) =
        some ChunkStatus.rendered ∧
      (0, 0) ∈ c6State.chunkLayers ∧
      (cleanupCache ⟨2000, 2, 2, 3⟩ c6State).chunkDataCache.map Prod.fst =
        [(0, 1), (1, 0)] :=
  ⟨rfl, by decide, rfl⟩

/-- C6 (amended): whenever the data cache is over `cacheSize`,
`cleanupCache` evicts the entries with the oldest `lastAccessTime`
as recorded in the chunk map (a missing record counting as time 0),
with no restriction to non-resident chunks: every evicted entry's time
is at most every surviving entry's time. -/
theorem c6_eviction_lru_amended (cfg : EngineConfig) (s : EngineState)
    (hover : cfg.cacheSize < s.chunkDataCache.length) :
    ∀ e ∈ s.chunkDataCache,
      e.1 ∉ (cleanupCache cfg s).chunkDataCache.map Prod.fst →
      ∀ e' ∈ s.chunkDataCache,
        e'.1 ∈ (cleanupCache cfg s).chunkDataCache.map Prod.fst →
        accessTime s e.1 ≤ accessTime s e'.1 := by
  have htot : ∀ a b : ChunkId × ℕ × ℕ,
      ((fun a b : ChunkId × ℕ × ℕ => (a.2.2 ≤ b.2.2 : Bool)) a b ||
        (fun a b : ChunkId × ℕ × ℕ => (a.2.2 ≤ b.2.2 : Bool)) b a) = true := by
    intro u v
    simp only [Bool.or_eq_true, decide_eq_true_eq]
    exact Nat.le_total _ _
  have htrans : ∀ a b c : ChunkId × ℕ × ℕ,
      ((fun a b : ChunkId × ℕ × ℕ => (a.2.2 ≤ b.2.2 : Bool)) a b) = true →
      ((fun a b : ChunkId × ℕ × ℕ => (a.2.2 ≤ b.2.2 : Bool)) b c) = true →
      ((fun a b : ChunkId × ℕ × ℕ => (a.2.2 ≤ b.2.2 : Bool)) a c) = true := by
    intro u v w h1 h2
    simp only [decide_eq_true_eq] at h1 h2 ⊢
    exact le_trans h1 h2
  have hnewcache : (cleanupCache cfg s).chunkDataCache =
      ((jsSort (fun a b => a.2.2 ≤ b.2.2)
          (s.chunkDataCache.map (fun x => (x.1, x.2, accessTime s x.1)))).take
          (s.chunkDataCache.length - cfg.cacheSize)).foldl
        (fun c item => mapDelete c item.1) s.chunkDataCache := by
    unfold cleanupCache
    rw [if_neg (not_le.mpr hover)]
  intro e he hegone e' he' hkept
  rw [hnewcache] at hegone hkept
  have hmem := fun a => mem_foldl_mapDelete Prod.fst
    ((jsSort (fun a b => a.2.2 ≤ b.2.2)
        (s.chunkDataCache.map (fun x => (x.1, x.2, accessTime s x.1)))).take
      (s.chunkDataCache.length - cfg.cacheSize)) s.chunkDataCache a
  have hrem : e.1 ∈ ((jsSort (fun a b => a.2.2 ≤ b.2.2)
      (s.chunkDataCache.map (fun x => (x.1, x.2, accessTime s x.1)))).take
      (s.chunkDataCache.length - cfg.cacheSize)).map Prod.fst := by
    by_contra hno
    exact hegone (List.mem_map_of_mem Prod.fst ((hmem e).mpr ⟨he, hno⟩))
  have hkeep : e'.1 ∉ ((jsSort (fun a b => a.2.2 ≤ b.2.2)
      (s.chunkDataCache.map (fun x => (x.1, x.2, accessTime s x.1)))).take
      (s.chunkDataCache.length - cfg.cacheSize)).map Prod.fst := by
    rcases List.mem_map.mp hkept with ⟨c, hc, hc1⟩
    rcases (hmem c).mp hc with ⟨-, hcno⟩
    rw [← hc1]
    exact hcno
  rcases List.mem_map.mp hrem with ⟨a, hatake, ha1⟩
  have hy : ((e'.1, e'.2, accessTime s e'.1) : ChunkId × ℕ × ℕ) ∈
      jsSort (fun a b => a.2.2 ≤ b.2.2)
        (s.chunkDataCache.map (fun x => (x.1, x.2, accessTime s x.1))) :=
    (jsSort_perm _ _).mem_iff.mpr
      (List.mem_map_of_mem (fun x => (x.1, x.2, accessTime s x.1)) he')
  rw [← List.take_append_drop (s.chunkDataCache.length - cfg.cacheSize)
      (jsSort (fun a b => a.2.2 ≤ b.2.2)
        (s.chunkDataCache.map (fun x => (x.1, x.2, accessTime s x.1))))] at hy
  rcases List.mem_append.mp hy with hytake | hydrop
  · exact absurd (List.mem_map_of_mem Prod.fst hytake) hkeep
  · have hle := take_sorted_le_drop (fun a b => a.2.2 ≤ b.2.2) htot htrans
      (s.chunkDataCache.map (fun x => (x.1, x.2, accessTime s x.1)))
      (s.chunkDataCache.length - cfg.cacheSize) hatake hydrop
    have hle' : a.2.2 ≤ accessTime s e'.1 := of_decide_eq_true hle
    have hta : a.2.2 = accessTime s e.1 := by
      have haE : a ∈ s.chunkDataCache.map
          (fun x => (x.1, x.2, accessTime s x.1)) :=
        (jsSort_perm _ _).mem_iff.mp (List.take_subset _ _ hatake)
      rcases List.mem_map.mp haE with ⟨c, -, rfl⟩
      exact congrArg (accessTime s) ha1
    rw [hta] at hle'
    exact hle'

/-- The engine state for the C6 witness (the claim's second scenario):
chunk `(0,0)` (A) was re-accessed after B and C, so B — chunk `(0,1)`,
now oldest — is the eviction candidate. -/
def c6WitnessState : EngineState :=
  { chunks := [((0, 0), mkMeta (0, 0) ChunkStatus.rendered 4),
               ((0, 1), mkMeta (0, 1) ChunkStatus.rendered 2),
               ((1, 0), mkMeta (1, 0) ChunkStatus.rendered 3)]
    chunkLayers := []
    chunkDataCache := [((0, 0), 1), ((0, 1), 1), ((1, 0), 1)]
    loadQueue := []
    renderQueue := []
    activeLoads := []
    stats := initStats
    events := [] }

/-- Witness for C6 (amended) at a concrete input with `cacheSize = 2` and
three cached entries. -/
theorem c6_eviction_lru_amended_witness :
    (⟨2000, 2, 2, 3⟩ : EngineConfig).cacheSize <
        c6WitnessState.chunkDataCache.length ∧
      (∀ e ∈ c6WitnessState.chunkDataCache,
        e.1 ∉ (cleanupCache ⟨2000, 2, 2, 3⟩
            c6WitnessState).chunkDataCache.map Prod.fst →
        ∀ e' ∈ c6WitnessState.chunkDataCache,
          e'.1 ∈ (cleanupCache ⟨2000, 2, 2, 3⟩
              c6WitnessState).chunkDataCache.map Prod.fst →
          accessTime c6WitnessState e.1 ≤ accessTime c6WitnessState e'.1) :=
  ⟨by decide,
    c6_eviction_lru_amended ⟨2000, 2, 2, 3⟩ c6WitnessState (by decide)⟩

end FreeDraw
